import Mathlib

/-!
Verification development for the Lynkr progress listener
(`tools/progress-listener.py`): a shallow embedding of the
`AgentTracker` class and of the pure formatting functions
`format_timestamp`, `format_duration` and `format_event`, followed by
theorems settling the specification claims.

Modelling conventions:
* JSON field values are modelled by `Value` (with `Prim` for one level
  of nesting, the only depth the listener ever inspects).  Floats never
  occur in any field the listener reads numerically in the claims, so
  numbers are modelled as integers.
* Python dicts are modelled as insertion-ordered association lists;
  assignment replaces the value at an existing key in place and appends
  a fresh key at the end, exactly as CPython dicts behave.
* `time.time()` is modelled by an explicit `now` parameter threaded
  into the functions that read the clock; only the relative order of
  the sampled values matters to the tracker.
* `datetime.fromtimestamp(..).strftime('%H:%M:%S')` uses the local
  timezone; it is modelled as the UTC wall clock.  No claim depends on
  the timezone offset.
* Python `str.__format__` with `.1f` rounds a binary double to one
  decimal digit; it is modelled as exact rational rounding half to
  even, which agrees with CPython on every value the claims mention.
* Operations on which CPython would raise `TypeError` (for example
  joining a feature list that is not a list of strings) are given a
  harmless total value; no claim exercises those inputs.
-/

/-- Primitive JSON values, used one nesting level below `Value`. -/
inductive Prim where
  | pStr (s : String)
  | pInt (n : Int)
  | pBool (b : Bool)
  | pNull
  | pStrList (l : List String)
deriving DecidableEq, Repr

/-- JSON field values as the listener reads them. -/
inductive Value where
  | vStr (s : String)
  | vInt (n : Int)
  | vBool (b : Bool)
  | vNull
  | vList (elems : List Prim)
  | vDict (entries : List (String × Prim))
deriving DecidableEq, Repr

/-- Python truthiness of a `Prim`-level value. -/
def truthyP : Prim → Bool
  | .pStr s => s ≠ ""
  | .pInt n => n ≠ 0
  | .pBool b => b
  | .pNull => false
  | .pStrList l => l ≠ []

/-- Python truthiness of a `Value` (`if v:`). -/
def truthyV : Value → Bool
  | .vStr s => s ≠ ""
  | .vInt n => n ≠ 0
  | .vBool b => b
  | .vNull => false
  | .vList l => l ≠ []
  | .vDict d => d ≠ []

/-- Python truthiness of an optional value (`None` is falsy). -/
def truthyOpt : Option Value → Bool
  | none => false
  | some v => truthyV v

/-- Python `repr` of a `Prim`, as it appears inside rendered containers. -/
def pyReprP : Prim → String
  | .pStr s => "'" ++ s ++ "'"
  | .pInt n => toString n
  | .pBool b => if b then "True" else "False"
  | .pNull => "None"
  | .pStrList l => "[" ++ String.intercalate ", " (l.map (fun s => "'" ++ s ++ "'")) ++ "]"

/-- Python `str` of a `Value`, as f-string interpolation renders it. -/
def pyStr : Value → String
  | .vStr s => s
  | .vInt n => toString n
  | .vBool b => if b then "True" else "False"
  | .vNull => "None"
  | .vList l => "[" ++ String.intercalate ", " (l.map pyReprP) ++ "]"
  | .vDict d =>
      "\x7b" ++ String.intercalate ", " (d.map (fun kv => "'" ++ kv.1 ++ "': " ++ pyReprP kv.2)) ++ "\x7d"

/-- Lookup in a Python dict modelled as an association list (`d[k]` / `d.get(k)`). -/
def dictFind {α : Type} : List (Value × α) → Value → Option α
  | [], _ => none
  | (k2, v) :: rest, k => if k2 = k then some v else dictFind rest k

/-- Assignment `d[k] = v` on a Python dict: replaces in place at an
existing key, appends at the end for a fresh key. -/
def dictSet {α : Type} : List (Value × α) → Value → α → List (Value × α)
  | [], k, v => [(k, v)]
  | (k2, v2) :: rest, k, v =>
      if k2 = k then (k, v) :: rest else (k2, v2) :: dictSet rest k v

/-- One record of the tracker's `agents` dict:
`{parentId, startTime, depth}` as built by `AgentTracker.start_agent`. -/
structure AgentRecord where
  parentId : Option Value
  startTime : Nat
  depth : Nat
deriving DecidableEq, Repr

/-- State of the `AgentTracker` class: the `agents` dict and the
`parent_children` dict. -/
structure AgentTracker where
  agents : List (Value × AgentRecord)
  parent_children : List (Value × List Value)
deriving DecidableEq, Repr

/-- `AgentTracker.__init__`: both dicts start empty. -/
def emptyTracker : AgentTracker := ⟨[], []⟩

/-- `AgentTracker.start_agent(agent_id, parent_id)`, with the clock
sample `time.time()` passed in as `now`. -/
def start_agent (tr : AgentTracker) (agent_id : Value) (parent_id : Option Value)
    (now : Nat) : AgentTracker :=
  let depth : Nat :=
    match parent_id with
    | some p =>
        if truthyV p then
          match dictFind tr.agents p with
          | some r => r.depth + 1
          | none => 0
        else 0
    | none => 0
  let agents2 := dictSet tr.agents agent_id ⟨parent_id, now, depth⟩
  let pc2 :=
    match parent_id with
    | some p =>
        if truthyV p then
          dictSet tr.parent_children p ((dictFind tr.parent_children p).getD [] ++ [agent_id])
        else tr.parent_children
    | none => tr.parent_children
  ⟨agents2, pc2⟩

/-- Comparison key of `sorted(self.agents.keys(), key=...startTime)`,
lifted to dict entries. -/
def timeLE (x y : Value × AgentRecord) : Prop :=
  x.2.startTime ≤ y.2.startTime

instance : DecidableRel timeLE := fun x y => Nat.decLe x.2.startTime y.2.startTime

instance : IsTotal (Value × AgentRecord) timeLE :=
  ⟨fun x y => Nat.le_total x.2.startTime y.2.startTime⟩

instance : IsTrans (Value × AgentRecord) timeLE :=
  ⟨fun _ _ _ h h2 => Nat.le_trans h h2⟩

/-- Index of the first occurrence of `k` in a list (`list.index`),
`none` when absent (the `except ValueError` path). -/
def listIdx (k : Value) : List Value → Option Nat
  | [] => none
  | x :: xs => if x = k then some 0 else (listIdx k xs).map (· + 1)

/-- `AgentTracker._get_agent_num`: stable-sort the known agent ids by
`startTime`, return 1-based index, `0` when the id is unknown. -/
def _get_agent_num (tr : AgentTracker) (agent_id : Value) : Nat :=
  let sorted_agents := (List.insertionSort timeLE tr.agents).map (fun e => e.1)
  match listIdx agent_id sorted_agents with
  | some i => i + 1
  | none => 0

/-- `AgentTracker.get_agent_prefix`. -/
def get_agent_prefix (tr : AgentTracker) (agent_id : Value) : String :=
  match dictFind tr.agents agent_id with
  | none => "[Agent]"
  | some agent =>
      match agent.parentId with
      | some p =>
          if truthyV p then
            "[Agent #" ++ toString (_get_agent_num tr agent_id) ++ " → #" ++
              toString (_get_agent_num tr p) ++ "]"
          else "[Agent #" ++ toString (_get_agent_num tr agent_id) ++ "]"
      | none => "[Agent #" ++ toString (_get_agent_num tr agent_id) ++ "]"

/-- Python string repetition `s * n`. -/
def strRepeat (s : String) : Nat → String
  | 0 => ""
  | n + 1 => s ++ strRepeat s n

/-- `AgentTracker.get_indent`: `"  " * depth`, empty for unknown ids. -/
def get_indent (tr : AgentTracker) (agent_id : Value) : String :=
  match dictFind tr.agents agent_id with
  | none => ""
  | some agent => strRepeat "  " agent.depth

-- ANSI escape constants of the `Colors` class.
namespace Colors

def HEADER : String := "\x1b[95m"
def OKBLUE : String := "\x1b[94m"
def OKCYAN : String := "\x1b[96m"
def OKGREEN : String := "\x1b[92m"
def WARNING : String := "\x1b[93m"
def FAIL : String := "\x1b[91m"
def ENDC : String := "\x1b[0m"
def BOLD : String := "\x1b[1m"
def UNDERLINE : String := "\x1b[4m"

end Colors

/-- A decoded event: the JSON object as an insertion-ordered list of
fields with distinct names, exactly as `json.loads` hands it to
`format_event`. -/
abbrev Event := List (String × Value)

/-- `event.get(k)` on an event object. -/
def pyGet : Event → String → Option Value
  | [], _ => none
  | (k2, v) :: rest, k => if k2 = k then some v else pyGet rest k

/-- `event.get(k, d)` where the listener then feeds the number to
millisecond arithmetic; non-integer present values would raise in
CPython and are mapped to the default. -/
def pyGetNat (event : Event) (k : String) (d : Nat) : Nat :=
  match pyGet event k with
  | some (Value.vInt n) => n.toNat
  | some _ => d
  | none => d

/-- Two-digit zero padding used by `%H:%M:%S`. -/
def pad2 (n : Nat) : String :=
  if n < 10 then "0" ++ toString n else toString n

/-- `format_timestamp(timestamp_ms)`: epoch milliseconds to a wall
clock `HH:MM:SS` string (local timezone modelled as UTC). -/
def format_timestamp (timestamp_ms : Nat) : String :=
  let total := timestamp_ms / 1000
  pad2 (total / 3600 % 24) ++ ":" ++ pad2 (total / 60 % 60) ++ ":" ++ pad2 (total % 60)

/-- Round `num / den` to the nearest integer, ties to even: the
rounding CPython's `.1f` formatting performs on these quotients. -/
def roundHalfEven (num den : Nat) : Nat :=
  let q := num / den
  let r := num % den
  if 2 * r < den then q
  else if den < 2 * r then q + 1
  else if q % 2 = 0 then q else q + 1

/-- Render `num / den` with one decimal digit (`f"{num/den:.1f}"`). -/
def oneDecimal (num den : Nat) : String :=
  let tenths := roundHalfEven (num * 10) den
  toString (tenths / 10) ++ "." ++ toString (tenths % 10)

/-- `format_duration(ms)`: milliseconds below 1000 verbatim, seconds
with one decimal below 60000, minutes with one decimal above. -/
def format_duration (ms : Nat) : String :=
  if ms < 1000 then toString ms ++ "ms"
  else if ms < 60000 then oneDecimal ms 1000 ++ "s"
  else oneDecimal ms 60000 ++ "m"

/-- `event.get('type', 'unknown')`. -/
def eventType (event : Event) : Value :=
  match pyGet event "type" with
  | some v => v
  | none => Value.vStr "unknown"

/-- `event.get('timestamp', time.time() * 1000)`: the timestamp field
when present (integer-valued), else the current instant. -/
def eventTimestamp (event : Event) (now_ms : Nat) : Nat :=
  match pyGet event "timestamp" with
  | some (Value.vInt t) => t.toNat
  | some _ => now_ms
  | none => now_ms

/-- Lines 126-133 of `format_event`: register the agent on an
`agent_loop_started` event with a truthy `agentId`, and compute the
`agent_prefix` and `indent` locals for any truthy `agentId`. -/
def trackAgent (tr : AgentTracker) (event : Event) (now : Nat) :
    AgentTracker × String × String :=
  match pyGet event "agentId" with
  | none => (tr, "", "")
  | some aid =>
      if truthyV aid then
        if eventType event = Value.vStr "agent_loop_started" then
          let tr2 := start_agent tr aid (pyGet event "parentAgentId") now
          (tr2, get_agent_prefix tr2 aid, get_indent tr2 aid)
        else (tr, get_agent_prefix tr aid, get_indent tr aid)
      else (tr, "", "")

/-- `server_info.get('features', [])` in the `connected` branch,
restricted to the list-of-strings shape `', '.join` accepts. -/
def featureList (server_info : Value) : List String :=
  match server_info with
  | Value.vDict entries =>
      match entries.find? (fun kv => kv.1 == "features") with
      | some kv =>
          match kv.2 with
          | Prim.pStrList l => l
          | _ => []
      | none => []
  | _ => []

/-- The dispatch on `event_type` in `format_event`, producing the
`output` list of lines.  `ts` is the formatted timestamp, `pfx` and
`ind` the `agent_prefix` and `indent` locals. -/
def renderBody (event : Event) (ts pfx ind : String) : List String :=
  let et := eventType event
  if et = Value.vStr "connected" then
    let server_info := (pyGet event "serverInfo").getD (Value.vDict [])
    [Colors.OKGREEN ++ "[" ++ ts ++ "] Connected to Lynkr progress server" ++ Colors.ENDC,
     "  Client ID: " ++ pyStr ((pyGet event "clientId").getD Value.vNull)] ++
    (if truthyV server_info then
      ["  Features: " ++ String.intercalate ", " (featureList server_info)]
     else [])
  else if et = Value.vStr "ready" then
    [Colors.OKCYAN ++ "[" ++ ts ++ "] " ++
       pyStr ((pyGet event "message").getD (Value.vStr "Ready")) ++ Colors.ENDC]
  else if et = Value.vStr "agent_loop_started" then
    [ind ++ Colors.HEADER ++ "[" ++ ts ++ "] " ++ pfx ++ " " ++ Colors.BOLD ++ "Started" ++ Colors.ENDC,
     ind ++ "  Model: " ++ Colors.OKCYAN ++ pyStr ((pyGet event "model").getD Value.vNull) ++ Colors.ENDC,
     ind ++ "  Provider: " ++ pyStr ((pyGet event "providerType").getD Value.vNull),
     ind ++ "  Max steps: " ++ pyStr ((pyGet event "maxSteps").getD Value.vNull),
     ind ++ "  Max duration: " ++ format_duration (pyGetNat event "maxDurationMs" 0)]
  else if et = Value.vStr "agent_loop_step_started" then
    [ind ++ Colors.OKBLUE ++ "[" ++ ts ++ "] " ++ pfx ++ " Step " ++ Colors.BOLD ++
       pyStr ((pyGet event "step").getD (Value.vInt 0)) ++ "/" ++
       pyStr ((pyGet event "maxSteps").getD (Value.vInt 0)) ++ Colors.ENDC ++ " (" ++
       pyStr ((pyGet event "progress").getD (Value.vInt 0)) ++ "%)"]
  else if et = Value.vStr "model_invocation_started" then
    [ind ++ Colors.OKCYAN ++ "[" ++ ts ++ "] " ++ pfx ++ " Calling model..." ++ Colors.ENDC,
     ind ++ "  Model: " ++ pyStr ((pyGet event "model").getD Value.vNull),
     ind ++ "  Provider: " ++ pyStr ((pyGet event "providerType").getD Value.vNull)] ++
    (if truthyOpt (pyGet event "estimatedTokens") then
      [ind ++ "  Estimated tokens: ~" ++ pyStr ((pyGet event "estimatedTokens").getD Value.vNull)]
     else [])
  else if et = Value.vStr "model_invocation_completed" then
    [ind ++ Colors.OKGREEN ++ "[" ++ ts ++ "] " ++ pfx ++ " Model response received" ++ Colors.ENDC,
     ind ++ "  Duration: " ++ format_duration (pyGetNat event "durationMs" 0),
     ind ++ "  Tokens: " ++ pyStr ((pyGet event "inputTokens").getD (Value.vInt 0)) ++ " in → " ++
       pyStr ((pyGet event "outputTokens").getD (Value.vInt 0)) ++ " out"]
  else if et = Value.vStr "tool_execution_started" then
    [ind ++ Colors.WARNING ++ "[" ++ ts ++ "] " ++ pfx ++ " Executing tool: " ++ Colors.BOLD ++
       pyStr ((pyGet event "toolName").getD (Value.vStr "unknown")) ++ Colors.ENDC] ++
    (if truthyOpt (pyGet event "requestPreview") then
      [ind ++ "  Request: " ++ pyStr ((pyGet event "requestPreview").getD Value.vNull)]
     else []) ++
    (if truthyV ((pyGet event "toolId").getD (Value.vStr "")) then
      [ind ++ "  ID: " ++ pyStr ((pyGet event "toolId").getD (Value.vStr ""))]
     else [])
  else if et = Value.vStr "tool_execution_completed" then
    [ind ++ Colors.OKCYAN ++ "[" ++ ts ++ "] " ++ pfx ++ " Tool " ++
       pyStr ((pyGet event "toolName").getD (Value.vStr "unknown")) ++ ": " ++
       (if truthyV ((pyGet event "ok").getD (Value.vBool true)) then
         Colors.OKGREEN ++ "OK" ++ Colors.ENDC
        else Colors.FAIL ++ "FAILED" ++ Colors.ENDC) ++ Colors.ENDC,
     ind ++ "  Duration: " ++ format_duration (pyGetNat event "durationMs" 0)] ++
    (if truthyOpt (pyGet event "responsePreview") then
      [ind ++ "  Response: " ++ pyStr ((pyGet event "responsePreview").getD Value.vNull)]
     else [])
  else if et = Value.vStr "agent_loop_completed" then
    [ind ++ Colors.OKGREEN ++ Colors.BOLD ++ "[" ++ ts ++ "] " ++ pfx ++ " Completed" ++ Colors.ENDC,
     ind ++ "  Duration: " ++ format_duration (pyGetNat event "durationMs" 0),
     ind ++ "  Steps: " ++ pyStr ((pyGet event "steps").getD (Value.vInt 0)),
     ind ++ "  Tool calls: " ++ pyStr ((pyGet event "toolCallsExecuted").getD (Value.vInt 0)),
     ind ++ "  Reason: " ++ pyStr ((pyGet event "terminationReason").getD (Value.vStr "completion"))]
  else if et = Value.vStr "error" then
    [Colors.FAIL ++ Colors.BOLD ++ "[" ++ ts ++ "] ERROR: " ++
       pyStr ((pyGet event "errorType").getD (Value.vStr "unknown")) ++ Colors.ENDC,
     "  " ++ pyStr ((pyGet event "errorMessage").getD (Value.vStr "No message"))]
  else if et = Value.vStr "server:shutdown" then
    [Colors.WARNING ++ "[" ++ ts ++ "] Server shutting down" ++ Colors.ENDC]
  else
    (Colors.OKCYAN ++ "[" ++ ts ++ "] " ++ pyStr et ++ Colors.ENDC) ::
      (event.filter (fun kv => decide (kv.1 ≠ "type" ∧ kv.1 ≠ "timestamp"))).map
        (fun kv => "  " ++ kv.1 ++ ": " ++ pyStr kv.2)

/-- Result of one `format_event` call: the `agent_prefix` and `indent`
locals and the `output` line list (the script returns the lines joined
by newlines). -/
structure RenderResult where
  prefixStr : String
  indentStr : String
  output : List String
deriving DecidableEq, Repr

/-- `format_event(event)`: the whole renderer, with the tracker state
passed and returned explicitly and the clock sample `now_ms` passed in. -/
def format_event (tr : AgentTracker) (event : Event) (now_ms : Nat) :
    AgentTracker × RenderResult :=
  let ts := format_timestamp (eventTimestamp event now_ms)
  match trackAgent tr event now_ms with
  | (tr2, pfx, ind) =>
      (tr2, { prefixStr := pfx, indentStr := ind, output := renderBody event ts pfx ind })

/-! Helper lemmas. -/

/-- The two-space repetition consists of `2 * n` space characters. -/
lemma strRepeat_two_space (n : Nat) :
    (strRepeat "  " n).length = 2 * n ∧ ∀ c ∈ (strRepeat "  " n).data, c = ' ' := by
  induction n with
  | zero => exact ⟨rfl, by intro c hc; simp [strRepeat] at hc⟩
  | succ k ih =>
      refine ⟨?_, ?_⟩
      · have h := ih.1
        rw [strRepeat, String.length_append, h]
        have h2 : ("  " : String).length = 2 := rfl
        omega
      · intro c hc
        rw [strRepeat, String.data_append] at hc
        rcases List.mem_append.1 hc with h | h
        · have hd : ("  " : String).data = [' ', ' '] := rfl
          rw [hd] at h
          simpa using h
        · exact ih.2 c h

/-- A concrete tracker used by witnesses: root agent `A` started at
time 10, child agent `B` (parent `A`) started at time 20. -/
def trAB : AgentTracker :=
  start_agent (start_agent emptyTracker (Value.vStr "A") none 10)
    (Value.vStr "B") (some (Value.vStr "A")) 20

/-! Claim theorems. -/

/-- C2: `format_duration` renders values below 1000 as an integer
millisecond count with suffix `ms`, values in `[1000, 60000)` as
seconds with exactly one decimal place and suffix `s`, values at or
above 60000 as minutes with exactly one decimal place and suffix `m`;
in particular `0 → "0ms"`, `999 → "999ms"`, `1000 → "1.0s"`,
`59999 → "60.0s"`, `60000 → "1.0m"`, `125000 → "2.1m"`. -/
theorem format_duration_policy :
    (∀ ms : Nat, ms < 1000 → format_duration ms = toString ms ++ "ms") ∧
    (∀ ms : Nat, 1000 ≤ ms → ms < 60000 →
      ∃ a b : Nat, b < 10 ∧ format_duration ms = toString a ++ "." ++ toString b ++ "s") ∧
    (∀ ms : Nat, 60000 ≤ ms →
      ∃ a b : Nat, b < 10 ∧ format_duration ms = toString a ++ "." ++ toString b ++ "m") ∧
    format_duration 0 = "0ms" ∧ format_duration 999 = "999ms" ∧
    format_duration 1000 = "1.0s" ∧ format_duration 59999 = "60.0s" ∧
    format_duration 60000 = "1.0m" ∧ format_duration 125000 = "2.1m" := by
  refine ⟨?_, ?_, ?_, rfl, rfl, rfl, rfl, rfl, rfl⟩
  · intro ms h
    simp [format_duration, h]
  · intro ms h1 h2
    have h3 : ¬ ms < 1000 := by omega
    refine ⟨roundHalfEven (ms * 10) 1000 / 10, roundHalfEven (ms * 10) 1000 % 10,
      Nat.mod_lt _ (by omega), ?_⟩
    simp [format_duration, h3, h2, oneDecimal]
  · intro ms h1
    have h3 : ¬ ms < 1000 := by omega
    have h4 : ¬ ms < 60000 := by omega
    refine ⟨roundHalfEven (ms * 10) 60000 / 10, roundHalfEven (ms * 10) 60000 % 10,
      Nat.mod_lt _ (by omega), ?_⟩
    simp [format_duration, h3, h4, oneDecimal]

/-- C2 witness: the seconds branch at 59999 ms. -/
theorem format_duration_policy_witness :
    ∃ a b : Nat, b < 10 ∧ format_duration 59999 = toString a ++ "." ++ toString b ++ "s" :=
  format_duration_policy.2.1 59999 (by omega) (by omega)

/-- C4: `get_indent` returns a string of exactly `2 * depth` space
characters for a registered agent, and the empty string for an id not
in the agents table. -/
theorem get_indent_spec :
    ∀ (tr : AgentTracker) (a : Value),
      (dictFind tr.agents a = none → get_indent tr a = "") ∧
      (∀ r, dictFind tr.agents a = some r →
        (get_indent tr a).length = 2 * r.depth ∧
        ∀ c ∈ (get_indent tr a).data, c = ' ') := by
  intro tr a
  refine ⟨?_, ?_⟩
  · intro h
    simp [get_indent, h]
  · intro r h
    simp only [get_indent, h]
    exact strRepeat_two_space r.depth

/-- C4 witness: agent `B` in the concrete tracker has depth 1, so its
indentation has length 2. -/
theorem get_indent_spec_witness :
    (get_indent trAB (Value.vStr "B")).length = 2 * 1 :=
  ((get_indent_spec trAB (Value.vStr "B")).2 ⟨some (Value.vStr "A"), 20, 1⟩ rfl).1

/-- The closed set of recognized event type discriminants in
`format_event`'s dispatch. -/
def recognizedTypes : List String :=
  ["connected", "ready", "agent_loop_started", "agent_loop_step_started",
   "model_invocation_started", "model_invocation_completed",
   "tool_execution_started", "tool_execution_completed",
   "agent_loop_completed", "error", "server:shutdown"]

/-- C6: rendering any event whose type is not `agent_loop_started`
leaves the tracker state (both dicts) unchanged; registration on an
agent-start event is the only mutation rendering performs. -/
theorem format_event_frame :
    ∀ (tr : AgentTracker) (event : Event) (now_ms : Nat),
      eventType event ≠ Value.vStr "agent_loop_started" →
      (format_event tr event now_ms).1 = tr := by
  intro tr ev now h
  cases hA : pyGet ev "agentId" with
  | none => simp [format_event, trackAgent, hA]
  | some aid =>
      by_cases ht : truthyV aid
      · simp [format_event, trackAgent, hA, ht, h]
      · simp [format_event, trackAgent, hA, ht]

/-- C6 witness: a `ready` event does not change the tracker. -/
theorem format_event_frame_witness :
    (format_event trAB [("type", Value.vStr "ready")] 0).1 = trAB :=
  format_event_frame trAB [("type", Value.vStr "ready")] 0 (by decide)

/-- C7: an `agent_loop_started` event for an unregistered id followed
by an `agent_loop_step_started` event for the same id renders the same
prefix and the same indentation both times. -/
theorem started_then_step_same :
    ∀ (tr : AgentTracker) (ev1 ev2 : Event) (n1 n2 : Nat),
      eventType ev1 = Value.vStr "agent_loop_started" →
      eventType ev2 = Value.vStr "agent_loop_step_started" →
      pyGet ev2 "agentId" = pyGet ev1 "agentId" →
      (∀ v, pyGet ev1 "agentId" = some v → dictFind tr.agents v = none) →
      (format_event (format_event tr ev1 n1).1 ev2 n2).2.prefixStr =
          (format_event tr ev1 n1).2.prefixStr ∧
        (format_event (format_event tr ev1 n1).1 ev2 n2).2.indentStr =
          (format_event tr ev1 n1).2.indentStr := by
  intro tr ev1 ev2 n1 n2 h1 h2 hsame _hfresh
  have h2ne : eventType ev2 ≠ Value.vStr "agent_loop_started" := by
    rw [h2]; decide
  cases hA : pyGet ev1 "agentId" with
  | none => simp [format_event, trackAgent, hA, hsame]
  | some aid =>
      by_cases ht : truthyV aid
      · simp [format_event, trackAgent, hA, hsame, ht, h1, h2ne]
      · simp [format_event, trackAgent, hA, hsame, ht]

/-- C7 witness: starting agent `C` on an empty tracker and then
rendering its first step yields the same prefix both times. -/
theorem started_then_step_same_witness :
    (format_event
        (format_event emptyTracker
          [("type", Value.vStr "agent_loop_started"), ("agentId", Value.vStr "C")] 1).1
        [("type", Value.vStr "agent_loop_step_started"), ("agentId", Value.vStr "C")] 2).2.prefixStr =
      (format_event emptyTracker
        [("type", Value.vStr "agent_loop_started"), ("agentId", Value.vStr "C")] 1).2.prefixStr :=
  (started_then_step_same emptyTracker
    [("type", Value.vStr "agent_loop_started"), ("agentId", Value.vStr "C")]
    [("type", Value.vStr "agent_loop_step_started"), ("agentId", Value.vStr "C")] 1 2
    (by decide) (by decide) (by decide) (by intro v hv; cases hv; rfl)).1

/-- C8: an event with an unrecognized type renders the type tag line
followed by one line per field other than `type` and `timestamp`, in
the order the event enumerates its fields. -/
theorem unknown_event_dump :
    ∀ (tr : AgentTracker) (event : Event) (now_ms : Nat),
      (∀ s ∈ recognizedTypes, eventType event ≠ Value.vStr s) →
      (format_event tr event now_ms).2.output =
        (Colors.OKCYAN ++ "[" ++ format_timestamp (eventTimestamp event now_ms) ++ "] " ++
            pyStr (eventType event) ++ Colors.ENDC) ::
          (event.filter (fun kv => decide (kv.1 ≠ "type" ∧ kv.1 ≠ "timestamp"))).map
            (fun kv => "  " ++ kv.1 ++ ": " ++ pyStr kv.2) := by
  intro tr ev now h
  have h1 := h "connected" (by simp [recognizedTypes])
  have h2 := h "ready" (by simp [recognizedTypes])
  have h3 := h "agent_loop_started" (by simp [recognizedTypes])
  have h4 := h "agent_loop_step_started" (by simp [recognizedTypes])
  have h5 := h "model_invocation_started" (by simp [recognizedTypes])
  have h6 := h "model_invocation_completed" (by simp [recognizedTypes])
  have h7 := h "tool_execution_started" (by simp [recognizedTypes])
  have h8 := h "tool_execution_completed" (by simp [recognizedTypes])
  have h9 := h "agent_loop_completed" (by simp [recognizedTypes])
  have h10 := h "error" (by simp [recognizedTypes])
  have h11 := h "server:shutdown" (by simp [recognizedTypes])
  cases hA : pyGet ev "agentId" with
  | none =>
      simp [format_event, trackAgent, hA, renderBody,
        h1, h2, h3, h4, h5, h6, h7, h8, h9, h10, h11]
  | some aid =>
      by_cases ht : truthyV aid
      · simp [format_event, trackAgent, hA, ht, h3, renderBody,
          h1, h2, h4, h5, h6, h7, h8, h9, h10, h11]
      · simp [format_event, trackAgent, hA, ht, renderBody,
          h1, h2, h3, h4, h5, h6, h7, h8, h9, h10, h11]

/-- C8 witness: the example event
`{type: custom_x, timestamp: T, foo: "bar", baz: 3}` renders the type
line plus exactly one line for `foo` and one for `baz`. -/
theorem unknown_event_dump_witness :
    (format_event emptyTracker
        [("type", Value.vStr "custom_x"), ("timestamp", Value.vInt 0),
         ("foo", Value.vStr "bar"), ("baz", Value.vInt 3)] 99).2.output =
      [Colors.OKCYAN ++ "[" ++ format_timestamp 0 ++ "] " ++ "custom_x" ++ Colors.ENDC,
       "  foo: bar", "  baz: 3"] := by
  have h := unknown_event_dump emptyTracker
    [("type", Value.vStr "custom_x"), ("timestamp", Value.vInt 0),
     ("foo", Value.vStr "bar"), ("baz", Value.vInt 3)] 99 (by decide)
  simpa using h

/-- C10: an `agent_loop_started` event whose `agentId` is absent or
falsy performs no registration — the tracker is unchanged — and the
rendering uses an empty prefix and an empty indentation, with the
header line showing them. -/
theorem agent_started_without_id :
    ∀ (tr : AgentTracker) (event : Event) (now_ms : Nat),
      eventType event = Value.vStr "agent_loop_started" →
      truthyOpt (pyGet event "agentId") = false →
      (format_event tr event now_ms).1 = tr ∧
      (format_event tr event now_ms).2.prefixStr = "" ∧
      (format_event tr event now_ms).2.indentStr = "" ∧
      (format_event tr event now_ms).2.output.head? =
        some (Colors.HEADER ++ "[" ++ format_timestamp (eventTimestamp event now_ms) ++
          "]  " ++ Colors.BOLD ++ "Started" ++ Colors.ENDC) := by
  intro tr ev now h1 h2
  cases hA : pyGet ev "agentId" with
  | none =>
      refine ⟨?_, ?_, ?_, ?_⟩ <;>
        simp [format_event, trackAgent, hA, renderBody, h1, String.append_assoc]
  | some aid =>
      rw [hA] at h2
      simp only [truthyOpt] at h2
      refine ⟨?_, ?_, ?_, ?_⟩ <;>
        simp [format_event, trackAgent, hA, h2, renderBody, h1, String.append_assoc]

/-- C10 witness: an agent-start event with an empty `agentId` leaves
the tracker unchanged. -/
theorem agent_started_without_id_witness :
    (format_event trAB
        [("type", Value.vStr "agent_loop_started"), ("agentId", Value.vStr "")] 7).1 = trAB :=
  (agent_started_without_id trAB
    [("type", Value.vStr "agent_loop_started"), ("agentId", Value.vStr "")] 7
    (by decide) (by decide)).1

/-- C5: with the optional per-event fields absent, rendering succeeds
and substitutes the defined fallbacks — duration, step and token
counts fall back to zero, the termination reason to `completion`, the
tool name to `unknown`, and an absent timestamp to the current
instant; prefix and indent queries for unknown agents degrade to the
placeholder tag and the empty string. -/
theorem renderer_fallbacks :
    ∀ (tr : AgentTracker) (now_ms : Nat),
      (format_event tr [("type", Value.vStr "agent_loop_completed")] now_ms).2.output =
        ["\x1b[92m\x1b[1m[" ++ format_timestamp now_ms ++ "]  Completed\x1b[0m",
         "  Duration: 0ms", "  Steps: 0", "  Tool calls: 0", "  Reason: completion"] ∧
      (format_event tr [("type", Value.vStr "tool_execution_completed")] now_ms).2.output =
        ["\x1b[96m[" ++ format_timestamp now_ms ++ "]  Tool unknown: \x1b[92mOK\x1b[0m\x1b[0m",
         "  Duration: 0ms"] ∧
      (format_event tr [("type", Value.vStr "tool_execution_started")] now_ms).2.output =
        ["\x1b[93m[" ++ format_timestamp now_ms ++ "]  Executing tool: \x1b[1munknown\x1b[0m"] ∧
      (format_event tr [("type", Value.vStr "model_invocation_completed")] now_ms).2.output =
        ["\x1b[92m[" ++ format_timestamp now_ms ++ "]  Model response received\x1b[0m",
         "  Duration: 0ms", "  Tokens: 0 in → 0 out"] ∧
      (format_event tr [("type", Value.vStr "agent_loop_step_started")] now_ms).2.output =
        ["\x1b[94m[" ++ format_timestamp now_ms ++ "]  Step \x1b[1m0/0\x1b[0m (0%)"] ∧
      (format_event tr [("type", Value.vStr "agent_loop_started")] now_ms).2.output =
        ["\x1b[95m[" ++ format_timestamp now_ms ++ "]  \x1b[1mStarted\x1b[0m",
         "  Model: \x1b[96mNone\x1b[0m", "  Provider: None", "  Max steps: None",
         "  Max duration: 0ms"] ∧
      (∀ a : Value, dictFind tr.agents a = none →
        get_agent_prefix tr a = "[Agent]" ∧ get_indent tr a = "") := by
  intro tr now_ms
  refine ⟨?_, ?_, ?_, ?_, ?_, ?_, ?_⟩
  · simp [format_event, trackAgent, renderBody, eventType, eventTimestamp, pyGet, pyGetNat,
      pyStr, Colors.OKGREEN, Colors.BOLD, Colors.ENDC, String.append_assoc]
    decide
  · simp [format_event, trackAgent, renderBody, eventType, eventTimestamp, pyGet, pyGetNat,
      pyStr, truthyV, truthyOpt, Colors.OKCYAN, Colors.OKGREEN, Colors.ENDC, String.append_assoc]
    decide
  · simp [format_event, trackAgent, renderBody, eventType, eventTimestamp, pyGet, pyGetNat,
      pyStr, truthyV, truthyOpt, Colors.WARNING, Colors.BOLD, Colors.ENDC, String.append_assoc]
  · simp [format_event, trackAgent, renderBody, eventType, eventTimestamp, pyGet, pyGetNat,
      pyStr, Colors.OKGREEN, Colors.ENDC, String.append_assoc]
    decide
  · simp [format_event, trackAgent, renderBody, eventType, eventTimestamp, pyGet, pyGetNat,
      pyStr, Colors.OKBLUE, Colors.BOLD, Colors.ENDC, String.append_assoc]
    congr 1
  · simp [format_event, trackAgent, renderBody, eventType, eventTimestamp, pyGet, pyGetNat,
      pyStr, Colors.HEADER, Colors.OKCYAN, Colors.BOLD, Colors.ENDC, String.append_assoc]
    decide
  · intro a h
    exact ⟨by simp [ get_agent_prefix, h], by simp [get_indent, h]⟩

/-- C5 witness: the unknown-agent queries on the concrete tracker. -/
theorem renderer_fallbacks_witness :
    get_agent_prefix trAB (Value.vStr "Z") = "[Agent]" ∧
      get_indent trAB (Value.vStr "Z") = "" :=
  (renderer_fallbacks trAB 0).2.2.2.2.2.2 (Value.vStr "Z") rfl

/-- Looking up a key other than the one just assigned is unaffected. -/
lemma dictFind_set_ne {α : Type} (l : List (Value × α)) (k k2 : Value) (v : α)
    (h : k2 ≠ k) : dictFind (dictSet l k2 v) k = dictFind l k := by
  induction l with
  | nil => simp [dictSet, dictFind, h]
  | cons x rest ih =>
      obtain ⟨xk, xv⟩ := x
      by_cases hx : xk = k2
      · subst hx
        simp [dictSet, dictFind, h]
      · simp only [dictSet, if_neg hx]
        by_cases hk : xk = k
        · simp [dictFind, hk]
        · simp [dictFind, hk, ih]

/-- Looking up the key just assigned yields the assigned value. -/
lemma dictFind_set_self {α : Type} (l : List (Value × α)) (k : Value) (v : α) :
    dictFind (dictSet l k v) k = some v := by
  induction l with
  | nil => simp [dictSet, dictFind]
  | cons x rest ih =>
      obtain ⟨xk, xv⟩ := x
      by_cases hx : xk = k
      · simp [dictSet, dictFind, hx]
      · simp [dictSet, dictFind, hx, ih]

/-- Assigning a fresh key appends the pair at the end of the dict. -/
lemma dictSet_fresh {α : Type} (l : List (Value × α)) (k : Value) (v : α)
    (h : dictFind l k = none) : dictSet l k v = l ++ [(k, v)] := by
  induction l with
  | nil => simp [dictSet]
  | cons x rest ih =>
      obtain ⟨xk, xv⟩ := x
      by_cases hx : xk = k
      · simp [dictFind, hx] at h
      · simp only [dictFind, if_neg hx] at h
        simp [dictSet, hx, ih h]

/-- A dict lookup fails exactly when the key is absent from the key list. -/
lemma dictFind_eq_none_iff {α : Type} (l : List (Value × α)) (k : Value) :
    dictFind l k = none ↔ k ∉ l.map (fun e => e.1) := by
  induction l with
  | nil => simp [dictFind]
  | cons x rest ih =>
      obtain ⟨xk, xv⟩ := x
      by_cases hx : xk = k
      · simp [dictFind, hx]
      · simp only [dictFind, if_neg hx, ih, List.map_cons, List.mem_cons]
        constructor
        · intro h hc
          rcases hc with hc | hc
          · exact hx hc.symm
          · exact h hc
        · intro h hc
          exact h (Or.inr hc)

/-- A successful dict lookup produces a member of the list. -/
lemma dictFind_mem {α : Type} (l : List (Value × α)) (k : Value) (v : α)
    (h : dictFind l k = some v) : (k, v) ∈ l := by
  induction l with
  | nil => simp [dictFind] at h
  | cons x rest ih =>
      obtain ⟨xk, xv⟩ := x
      by_cases hx : xk = k
      · subst hx
        simp [dictFind] at h
        simp [h]
      · simp only [dictFind, if_neg hx] at h
        exact List.mem_cons_of_mem _ (ih h)

/-- Replay a list of `start_agent` calls `(agent_id, parent_id, now)`
against a tracker state. -/
def run_from (tr : AgentTracker) : List (Value × Option Value × Nat) → AgentTracker
  | [] => tr
  | (a, p, t) :: rest => run_from (start_agent tr a p t) rest

/-- Replay a list of `start_agent` calls on a fresh tracker. -/
def run_registers (regs : List (Value × Option Value × Nat)) : AgentTracker :=
  run_from emptyTracker regs

/-- Registrations of other ids do not touch an agent's record. -/
lemma run_from_find_ne (regs : List (Value × Option Value × Nat)) :
    ∀ (tr : AgentTracker) (a : Value), (∀ e ∈ regs, e.1 ≠ a) →
      dictFind (run_from tr regs).agents a = dictFind tr.agents a := by
  induction regs with
  | nil => intro tr a _; rfl
  | cons e rest ih =>
      intro tr a h
      obtain ⟨b, p, t⟩ := e
      have hb : b ≠ a := h (b, p, t) (List.mem_cons_self _ _)
      have hrest : ∀ e ∈ rest, e.1 ≠ a := fun e he => h e (List.mem_cons_of_mem _ he)
      rw [run_from, ih _ a hrest]
      simp only [start_agent]
      exact dictFind_set_ne _ _ _ _ hb

/-- C3: depth is computed once at registration — `parent.depth + 1`
when a truthy `parentId` naming an already-registered agent is
supplied, `0` when the parent id is absent, falsy, or not yet
registered — and the stored record of an agent never changes while
agents with other ids register afterwards. -/
theorem depth_fixed_at_registration :
    ∀ (tr : AgentTracker) (a : Value) (p : Option Value) (t : Nat)
      (rest : List (Value × Option Value × Nat)),
      (∀ e ∈ rest, e.1 ≠ a) →
      (∀ pv pr, p = some pv → truthyV pv = true → dictFind tr.agents pv = some pr →
        (dictFind (run_from (start_agent tr a p t) rest).agents a).map AgentRecord.depth =
          some (pr.depth + 1)) ∧
      ((p = none ∨ ∃ pv, p = some pv ∧ (truthyV pv = false ∨ dictFind tr.agents pv = none)) →
        (dictFind (run_from (start_agent tr a p t) rest).agents a).map AgentRecord.depth =
          some 0) ∧
      dictFind (run_from (start_agent tr a p t) rest).agents a =
        dictFind (start_agent tr a p t).agents a := by
  intro tr a p t rest hrest
  have hframe := run_from_find_ne rest (start_agent tr a p t) a hrest
  refine ⟨?_, ?_, hframe⟩
  · intro pv pr hp htr hfind
    subst hp
    rw [hframe]
    simp only [start_agent]
    rw [dictFind_set_self]
    simp [htr, hfind]
  · intro hcase
    rw [hframe]
    rcases hcase with h | ⟨pv, hp, hcase2⟩
    · subst h
      simp only [start_agent]
      rw [dictFind_set_self]
      rfl
    · subst hp
      simp only [start_agent]
      rw [dictFind_set_self]
      rcases hcase2 with h | h <;> simp [h]

/-- C3 witness: child `B` was registered with known parent `A` (depth
0), so `B` stores depth 1, unchanged after agent `C` registers. -/
theorem depth_fixed_at_registration_witness :
    (dictFind (run_from (start_agent
        (start_agent emptyTracker (Value.vStr "A") none 10)
        (Value.vStr "B") (some (Value.vStr "A")) 20)
        [(Value.vStr "C", none, 30)]).agents (Value.vStr "B")).map AgentRecord.depth =
      some (0 + 1) :=
  (depth_fixed_at_registration
    (start_agent emptyTracker (Value.vStr "A") none 10)
    (Value.vStr "B") (some (Value.vStr "A")) 20
    [(Value.vStr "C", none, 30)] (by decide)).1
    (Value.vStr "A") ⟨none, 10, 0⟩ rfl (by decide) (by decide)

/-- C9 counterexample: registering the same agent id again overwrites
the stored `startTime` with the new clock sample, so the claim's
"never mutated ... including a repeated register call" fails. -/
theorem start_time_mutated_by_reregistration :
    (dictFind (start_agent emptyTracker (Value.vStr "A") none 0).agents
        (Value.vStr "A")).map AgentRecord.startTime = some 0 ∧
    (dictFind (start_agent (start_agent emptyTracker (Value.vStr "A") none 0)
        (Value.vStr "A") none 5).agents
        (Value.vStr "A")).map AgentRecord.startTime = some 5 ∧
    (dictFind (start_agent (start_agent emptyTracker (Value.vStr "A") none 0)
        (Value.vStr "A") none 5).agents
        (Value.vStr "A")).map AgentRecord.startTime ≠
      (dictFind (start_agent emptyTracker (Value.vStr "A") none 0).agents
        (Value.vStr "A")).map AgentRecord.startTime := by
  refine ⟨rfl, rfl, ?_⟩
  decide

/-- C9 amended: an agent's stored `startTime` is the clock sample of
its most recent registration: it is set at first registration, never
changed by operations that do not re-register the same id, and a
repeated `start_agent` call for the same id overwrites it with the new
sample. -/
theorem start_time_set_once_distinct_ids :
    ∀ (tr : AgentTracker) (a : Value) (p : Option Value) (t : Nat)
      (rest : List (Value × Option Value × Nat)),
      (∀ e ∈ rest, e.1 ≠ a) →
      (dictFind (run_from (start_agent tr a p t) rest).agents a).map AgentRecord.startTime =
        some t ∧
      ∀ (p2 : Option Value) (t2 : Nat),
        (dictFind (start_agent (run_from (start_agent tr a p t) rest) a p2 t2).agents
          a).map AgentRecord.startTime = some t2 := by
  intro tr a p t rest hrest
  have hframe := run_from_find_ne rest (start_agent tr a p t) a hrest
  constructor
  · rw [hframe]
    simp only [start_agent]
    rw [dictFind_set_self]
    rfl
  · intro p2 t2
    simp only [start_agent]
    rw [dictFind_set_self]
    rfl

/-- C9 amended witness: agent `A` keeps `startTime = 10` after `B`
registers. -/
theorem start_time_set_once_distinct_ids_witness :
    (dictFind (run_from (start_agent emptyTracker (Value.vStr "A") none 10)
        [(Value.vStr "B", some (Value.vStr "A"), 20)]).agents
        (Value.vStr "A")).map AgentRecord.startTime = some 10 :=
  (start_time_set_once_distinct_ids emptyTracker (Value.vStr "A") none 10
    [(Value.vStr "B", some (Value.vStr "A"), 20)] (by decide)).1

/-- `list.index` fails on an absent element. -/
lemma listIdx_eq_none (k : Value) (l : List Value) (h : k ∉ l) :
    listIdx k l = none := by
  induction l with
  | nil => rfl
  | cons x xs ih =>
      have hx : ¬ x = k := fun hc => h (hc ▸ List.mem_cons_self _ _)
      have hxs : k ∉ xs := fun hc => h (List.mem_cons_of_mem _ hc)
      simp [listIdx, hx, ih hxs]

/-- In a list sorted by `startTime` with pairwise-distinct start times
and keys, the index of an entry's key equals the number of entries
with strictly smaller start time. -/
lemma listIdx_eq_count (a : Value) (r : AgentRecord) :
    ∀ (L : List (Value × AgentRecord)),
      List.Pairwise timeLE L →
      (L.map (fun e => e.2.startTime)).Nodup →
      (L.map (fun e => e.1)).Nodup →
      (a, r) ∈ L →
      listIdx a (L.map (fun e => e.1)) =
        some (L.countP (fun e => decide (e.2.startTime < r.startTime))) := by
  intro L
  induction L with
  | nil => intro _ _ _ h; simp at h
  | cons x xs ih =>
      intro hsort htime hkey hmem
      obtain ⟨hle, hsort2⟩ := List.pairwise_cons.1 hsort
      rw [List.map_cons] at htime hkey
      obtain ⟨htx, htime2⟩ := List.nodup_cons.1 htime
      obtain ⟨hkx, hkey2⟩ := List.nodup_cons.1 hkey
      by_cases hx : x.1 = a
      · have hxr : x = (a, r) := by
          rcases List.mem_cons.1 hmem with h | h
          · exact h.symm
          · exact absurd (List.mem_map.2 ⟨(a, r), h, rfl⟩) (hx ▸ hkx)
        subst hxr
        have hcount : xs.countP (fun e => decide (e.2.startTime < r.startTime)) = 0 := by
          refine List.countP_eq_zero.2 ?_
          intro y hy
          have h1 : r.startTime ≤ y.2.startTime := hle y hy
          simpa using Nat.not_lt.2 h1
        simp [listIdx, List.countP_cons, hcount]
      · have hmem2 : (a, r) ∈ xs := by
          rcases List.mem_cons.1 hmem with h | h
          · exact absurd (show x.1 = a by rw [← h]) hx
          · exact h
        have hlt : x.2.startTime < r.startTime := by
          have h1 : x.2.startTime ≤ r.startTime := hle (a, r) hmem2
          have h2 : r.startTime ∈ xs.map (fun e => e.2.startTime) :=
            List.mem_map.2 ⟨(a, r), hmem2, rfl⟩
          have h3 : x.2.startTime ≠ r.startTime := fun hc => htx (hc ▸ h2)
          omega
        rw [List.map_cons, listIdx, if_neg hx, ih hsort2 htime2 hkey2 hmem2]
        simp [List.countP_cons, hlt]

/-- Specification-side ordinal, from the spec's wording: sort the
currently-known agent ids by start time and take the 1-based rank,
with `0` for an unknown id.  Stated as a strict-smaller count, which
is the rank when start times are pairwise distinct. -/
def spec_ordinal (tr : AgentTracker) (a : Value) : Nat :=
  match dictFind tr.agents a with
  | some r => tr.agents.countP (fun e => decide (e.2.startTime < r.startTime)) + 1
  | none => 0

/-- With pairwise-distinct keys and start times, `_get_agent_num`
computes exactly the specification ordinal. -/
lemma agent_num_eq_rank (tr : AgentTracker)
    (hk : (tr.agents.map (fun e => e.1)).Nodup)
    (ht : (tr.agents.map (fun e => e.2.startTime)).Nodup) (a : Value) :
    _get_agent_num tr a = spec_ordinal tr a := by
  have hperm : List.Perm (List.insertionSort timeLE tr.agents) tr.agents :=
    List.perm_insertionSort timeLE tr.agents
  cases h : dictFind tr.agents a with
  | none =>
      have hnot : a ∉ tr.agents.map (fun e => e.1) := (dictFind_eq_none_iff _ _).1 h
      have hnot2 : a ∉ (List.insertionSort timeLE tr.agents).map (fun e => e.1) :=
        fun hc => hnot ((hperm.map (fun e => e.1)).mem_iff.1 hc)
      rw [_get_agent_num, listIdx_eq_none _ _ hnot2]
      simp [spec_ordinal, h]
  | some r =>
      have hmem : (a, r) ∈ tr.agents := dictFind_mem _ _ _ h
      have hmemL : (a, r) ∈ List.insertionSort timeLE tr.agents := hperm.mem_iff.2 hmem
      have hsort : List.Pairwise timeLE (List.insertionSort timeLE tr.agents) :=
        List.sorted_insertionSort timeLE tr.agents
      have hkL : ((List.insertionSort timeLE tr.agents).map (fun e => e.1)).Nodup :=
        ((hperm.map (fun e => e.1)).nodup_iff).2 hk
      have htL : ((List.insertionSort timeLE tr.agents).map
          (fun e => e.2.startTime)).Nodup :=
        ((hperm.map (fun e => e.2.startTime)).nodup_iff).2 ht
      have hidx := listIdx_eq_count a r _ hsort htL hkL hmemL
      rw [_get_agent_num, hidx]
      have hcnt := hperm.countP_eq (fun e => decide (e.2.startTime < r.startTime))
      rw [hcnt]
      simp [spec_ordinal, h]

/-- Replaying registrations with globally fresh, pairwise-distinct ids
appends one record per call, carrying the supplied clock sample. -/
lemma run_from_pairs (regs : List (Value × Option Value × Nat)) :
    ∀ (tr : AgentTracker),
      (tr.agents.map (fun e => e.1) ++ regs.map (fun e => e.1)).Nodup →
      (run_from tr regs).agents.map (fun e => (e.1, e.2.startTime)) =
        tr.agents.map (fun e => (e.1, e.2.startTime)) ++ regs.map (fun e => (e.1, e.2.2)) := by
  induction regs with
  | nil => intro tr _; simp [run_from]
  | cons e rest ih =>
      intro tr hnd
      obtain ⟨a, p, t⟩ := e
      have ha : a ∉ tr.agents.map (fun e => e.1) := by
        intro hc
        exact (List.disjoint_of_nodup_append hnd) hc (by simp)
      have hfind : dictFind tr.agents a = none := (dictFind_eq_none_iff _ _).2 ha
      have hag : (start_agent tr a p t).agents.map (fun e => (e.1, e.2.startTime)) =
          tr.agents.map (fun e => (e.1, e.2.startTime)) ++ [(a, t)] := by
        simp only [start_agent]
        rw [dictSet_fresh _ _ _ hfind, List.map_append]
        rfl
      have hagk : (start_agent tr a p t).agents.map (fun e => e.1) =
          tr.agents.map (fun e => e.1) ++ [a] := by
        simp only [start_agent]
        rw [dictSet_fresh _ _ _ hfind, List.map_append]
        rfl
      have hkeys2 : ((start_agent tr a p t).agents.map (fun e => e.1) ++
          rest.map (fun e => e.1)).Nodup := by
        rw [hagk]
        simpa [List.append_assoc] using hnd
      rw [run_from, ih _ hkeys2, hag]
      simp [List.append_assoc]

/-- The key/time pairs of a freshly replayed tracker are the
registration sequence itself. -/
lemma run_registers_pairs (regs : List (Value × Option Value × Nat))
    (h : (regs.map (fun e => e.1)).Nodup) :
    (run_registers regs).agents.map (fun e => (e.1, e.2.startTime)) =
      regs.map (fun e => (e.1, e.2.2)) := by
  have h2 := run_from_pairs regs emptyTracker (by simpa [emptyTracker] using h)
  simpa [emptyTracker, run_registers] using h2

/-- Key list of a freshly replayed tracker. -/
lemma run_registers_keys (regs : List (Value × Option Value × Nat))
    (h : (regs.map (fun e => e.1)).Nodup) :
    (run_registers regs).agents.map (fun e => e.1) = regs.map (fun e => e.1) := by
  have h2 := congrArg (List.map Prod.fst) (run_registers_pairs regs h)
  simpa [List.map_map, Function.comp] using h2

/-- Start-time list of a freshly replayed tracker. -/
lemma run_registers_times (regs : List (Value × Option Value × Nat))
    (h : (regs.map (fun e => e.1)).Nodup) :
    (run_registers regs).agents.map (fun e => e.2.startTime) = regs.map (fun e => e.2.2) := by
  have h2 := congrArg (List.map Prod.snd) (run_registers_pairs regs h)
  simpa [List.map_map, Function.comp] using h2

/-- C1: after any sequence of registrations with distinct agent ids
(and pairwise-distinct clock samples, so that the rank of a start time
is well defined), the prefix of an unknown id is the placeholder
`[Agent]`; the prefix of a registered agent without a (truthy) parent
id is a single-level tag carrying its ordinal; the prefix of a
registered agent with a truthy parent id is the two-level
`child → parent` tag carrying both ordinals; and the ordinal shown is
the specification ordinal — the 1-based rank of the agent's
`startTime` among all registered agents, with `0` for an unregistered
id (in particular for an unregistered parent). -/
theorem prefix_rank_spec :
    ∀ (regs : List (Value × Option Value × Nat)),
      (regs.map (fun e => e.1)).Nodup →
      (regs.map (fun e => e.2.2)).Nodup →
      (∀ a, dictFind (run_registers regs).agents a = none →
        get_agent_prefix (run_registers regs) a = "[Agent]") ∧
      (∀ a r, dictFind (run_registers regs).agents a = some r →
        truthyOpt r.parentId = false →
        get_agent_prefix (run_registers regs) a =
          "[Agent #" ++ toString (spec_ordinal (run_registers regs) a) ++ "]") ∧
      (∀ a r pv, dictFind (run_registers regs).agents a = some r →
        r.parentId = some pv → truthyV pv = true →
        get_agent_prefix (run_registers regs) a =
          "[Agent #" ++ toString (spec_ordinal (run_registers regs) a) ++ " → #" ++
            toString (spec_ordinal (run_registers regs) pv) ++ "]") ∧
      (∀ pv, dictFind (run_registers regs).agents pv = none →
        spec_ordinal (run_registers regs) pv = 0) := by
  intro regs hids hts
  have hkeys : ((run_registers regs).agents.map (fun e => e.1)).Nodup := by
    rw [run_registers_keys regs hids]
    exact hids
  have htimes : ((run_registers regs).agents.map (fun e => e.2.startTime)).Nodup := by
    rw [run_registers_times regs hids]
    exact hts
  have hrank := agent_num_eq_rank (run_registers regs) hkeys htimes
  refine ⟨?_, ?_, ?_, ?_⟩
  · intro a h
    simp [ get_agent_prefix, h]
  · intro a r h hpar
    simp only [ get_agent_prefix, h]
    cases hp : r.parentId with
    | none => rw [hrank a]
    | some pv =>
        rw [hp] at hpar
        simp only [truthyOpt] at hpar
        simp [hpar, hrank a]
  · intro a r pv h hp htruthy
    simp only [ get_agent_prefix, h, hp]
    simp [htruthy, hrank a, hrank pv]
  · intro pv h
    simp [spec_ordinal, h]

/-- C1 witness: root `A` then child `B` with parent `A` gives `B` the
two-level tag `[Agent #2 → #1]`. -/
theorem prefix_rank_spec_witness :
    get_agent_prefix (run_registers
        [(Value.vStr "A", none, 10), (Value.vStr "B", some (Value.vStr "A"), 20)])
      (Value.vStr "B") = "[Agent #2 → #1]" := by
  have h := (prefix_rank_spec
      [(Value.vStr "A", none, 10), (Value.vStr "B", some (Value.vStr "A"), 20)]
      (by decide) (by decide)).2.2.1
      (Value.vStr "B") ⟨some (Value.vStr "A"), 20, 1⟩ (Value.vStr "A")
      (by decide) rfl (by decide)
  rw [h]
  decide
